import Mathlib

/-!
Verification development for the ELTT blockchain core
(`ELTT-Blockchain.py` chain engine and `ELTT-Validator.py` full-state
validator).  All definitions are shallow embeddings of the Python source:

* byte strings are `List Nat` with every entry `< 256`;
* Python `float` values (balances, amounts, energies) are modelled as exact
  rationals `ℚ`; `struct.pack("!d", x)` is modelled by IEEE-754 binary64
  round-to-nearest-even encoding of the rational;
* Python exceptions (IndexError from list indexing, struct.pack range
  errors) are modelled by `Option`: `none` means the Python code raises;
* Python's in-place mutation of the `Blockchain` aggregate becomes explicit
  state passing: every mutating operation returns the new aggregate.
-/

namespace ELTT

/-- Big-endian byte encoding of `v` on `n` bytes (`struct.pack("!I")`,
`struct.pack("!Q")` after their range checks). -/
def be (n : Nat) (v : Nat) : List Nat :=
  match n with
  | 0 => []
  | n + 1 => be n (v / 256) ++ [v % 256]

/-- Big-endian value of a byte string (used to read the last 8 bytes of a
digest as an unsigned 64-bit integer). -/
def beVal (l : List Nat) : Nat :=
  l.foldl (fun a b => a * 256 + b) 0

/-- UTF-8 encoding of a single Unicode code point. -/
def utf8Char (n : Nat) : List Nat :=
  if n < 0x80 then [n]
  else if n < 0x800 then
    [0xC0 + n / 64, 0x80 + n % 64]
  else if n < 0x10000 then
    [0xE0 + n / 4096, 0x80 + (n / 64) % 64, 0x80 + n % 64]
  else
    [0xF0 + n / 262144, 0x80 + (n / 4096) % 64, 0x80 + (n / 64) % 64, 0x80 + n % 64]

/-- UTF-8 bytes of a string (`str.encode("utf-8")`). -/
def utf8 (s : String) : List Nat :=
  s.data.flatMap (fun c => utf8Char c.toNat)

/-! ## SHA-256 (hashlib.sha256), executable, over `List Nat` bytes. -/

def add32 (a b : Nat) : Nat := (a + b) % 4294967296

def rotr32 (n x : Nat) : Nat :=
  ((x >>> n) ||| (x <<< (32 - n))) % 4294967296

def shr32 (n x : Nat) : Nat := x >>> n

def bsig0 (x : Nat) : Nat := (rotr32 2 x) ^^^ (rotr32 13 x) ^^^ (rotr32 22 x)
def bsig1 (x : Nat) : Nat := (rotr32 6 x) ^^^ (rotr32 11 x) ^^^ (rotr32 25 x)
def ssig0 (x : Nat) : Nat := (rotr32 7 x) ^^^ (rotr32 18 x) ^^^ (shr32 3 x)
def ssig1 (x : Nat) : Nat := (rotr32 17 x) ^^^ (rotr32 19 x) ^^^ (shr32 10 x)

def shaK : List Nat := [
  1116352408, 1899447441, 3049323471, 3921009573, 961987163,
  1508970993, 2453635748, 2870763221, 3624381080, 310598401,
  607225278, 1426881987, 1925078388, 2162078206, 2614888103,
  3248222580, 3835390401, 4022224774, 264347078, 604807628,
  770255983, 1249150122, 1555081692, 1996064986, 2554220882,
  2821834349, 2952996808, 3210313671, 3336571891, 3584528711,
  113926993, 338241895, 666307205, 773529912, 1294757372,
  1396182291, 1695183700, 1986661051, 2177026350, 2456956037,
  2730485921, 2820302411, 3259730800, 3345764771, 3516065817,
  3600352804, 4094571909, 275423344, 430227734, 506948616,
  659060556, 883997877, 958139571, 1322822218, 1537002063,
  1747873779, 1955562222, 2024104815, 2227730452, 2361852424,
  2428436474, 2756734187, 3204031479, 3329325298]

def shaH0 : List Nat := [
  1779033703, 3144134277, 1013904242,
  2773480762, 1359893119, 2600822924,
  528734635, 1541459225]

/-- Pad a message to a multiple of 64 bytes: `0x80`, zeros, then the bit
length on 8 big-endian bytes. -/
def shaPad (msg : List Nat) : List Nat :=
  let L := msg.length
  let k := (119 - L % 64) % 64
  msg ++ [0x80] ++ List.replicate k 0 ++ be 8 ((8 * L) % 18446744073709551616)

/-- Split a byte string into 64-byte chunks (fuel-driven structural
recursion; `fuel ≥ length` suffices). -/
def chunks64 (fuel : Nat) (l : List Nat) : List (List Nat) :=
  match fuel, l with
  | 0, _ => []
  | _, [] => []
  | f + 1, l => l.take 64 :: chunks64 f (l.drop 64)

/-- Group a byte string into big-endian 32-bit words. -/
def words32 (fuel : Nat) (l : List Nat) : List Nat :=
  match fuel, l with
  | 0, _ => []
  | _, [] => []
  | f + 1, l => beVal (l.take 4) :: words32 f (l.drop 4)

/-- Message-schedule extension: append `f` further words to `w`. -/
def shaExtend (w : List Nat) (f : Nat) : List Nat :=
  match f with
  | 0 => w
  | f + 1 =>
    let n := w.length
    let x := add32 (add32 (w.getD (n - 16) 0) (ssig0 (w.getD (n - 15) 0)))
                   (add32 (w.getD (n - 7) 0) (ssig1 (w.getD (n - 2) 0)))
    shaExtend (w ++ [x]) f

/-- One compression round. -/
def shaRound (st : Nat × Nat × Nat × Nat × Nat × Nat × Nat × Nat) (kw : Nat × Nat) :
    Nat × Nat × Nat × Nat × Nat × Nat × Nat × Nat :=
  let (a, b, c, d, e, f, g, h) := st
  let ch := (e &&& f) ^^^ ((4294967295 - e) &&& g)
  let maj := (a &&& b) ^^^ (a &&& c) ^^^ (b &&& c)
  let t1 := add32 (add32 (add32 h (bsig1 e)) (add32 ch kw.1)) kw.2
  let t2 := add32 (bsig0 a) maj
  (add32 t1 t2, a, b, c, add32 d t1, e, f, g)

/-- Process one 64-byte chunk against the running hash value. -/
def shaChunk (hs : List Nat) (chunk : List Nat) : List Nat :=
  let w := shaExtend (words32 16 chunk) 48
  let init : Nat × Nat × Nat × Nat × Nat × Nat × Nat × Nat :=
    (hs.getD 0 0, hs.getD 1 0, hs.getD 2 0, hs.getD 3 0,
     hs.getD 4 0, hs.getD 5 0, hs.getD 6 0, hs.getD 7 0)
  let (a, b, c, d, e, f, g, h) := (shaK.zip w).foldl shaRound init
  [add32 (hs.getD 0 0) a, add32 (hs.getD 1 0) b, add32 (hs.getD 2 0) c,
   add32 (hs.getD 3 0) d, add32 (hs.getD 4 0) e, add32 (hs.getD 5 0) f,
   add32 (hs.getD 6 0) g, add32 (hs.getD 7 0) h]

/-- SHA-256 digest (32 bytes) of a byte string — the embedding of
`hashlib.sha256(data).digest()`. -/
def sha256 (msg : List Nat) : List Nat :=
  let padded := shaPad msg
  let hs := (chunks64 (padded.length + 1) padded).foldl shaChunk shaH0
  hs.flatMap (fun wd => be 4 wd)

/-! ## IEEE-754 binary64 encoding of a rational (struct.pack("!d")).

Python `float` amounts are modelled as exact rationals; `struct.pack("!d",
float(x))` becomes round-to-nearest-even binary64 encoding of the rational. -/

/-- Floor of log2 for positive naturals, fuel-driven (`fuel ≥ n` suffices). -/
def log2fuel : Nat → Nat → Nat
  | 0, _ => 0
  | f + 1, n => if n ≤ 1 then 0 else log2fuel f (n / 2) + 1

def natLog2 (n : Nat) : Nat := log2fuel n n

/-- Powers `2 ^ e` as a rational, for an integer exponent. -/
def pow2q (e : Int) : ℚ :=
  if 0 ≤ e then ((2 ^ e.toNat : Nat) : ℚ) else 1 / ((2 ^ (-e).toNat : Nat) : ℚ)

/-- Floor of log2 of a positive rational. -/
def qlog2 (q : ℚ) : Int :=
  if 1 ≤ q then (natLog2 q.floor.toNat : Int)
  else
    let k := natLog2 (1 / q).floor.toNat
    if q = pow2q (-(k : Int)) then -(k : Int) else -(k : Int) - 1

/-- Round a rational to the nearest integer, ties to even. -/
def rne (q : ℚ) : Int :=
  let f := q.floor
  let r := q - (f : ℚ)
  if r < 1 / 2 then f
  else if 1 / 2 < r then f + 1
  else if f % 2 = 0 then f else f + 1

/-- The 64 raw bits of the IEEE-754 binary64 value nearest to `q`
(round to nearest, ties to even; overflow maps to infinity). -/
def f64bits (q : ℚ) : Nat :=
  if q = 0 then 0
  else
    let s : Nat := if q < 0 then 0x8000000000000000 else 0
    let a := |q|
    let e := qlog2 a
    if 1024 ≤ e then s + 0x7FF0000000000000
    else if e < -1022 then
      s + (rne (a * pow2q 1074)).toNat
    else
      let m := rne (a * pow2q (52 - e))
      if m = 2 ^ 53 then
        if e = 1023 then s + 0x7FF0000000000000
        else s + (e + 1 + 1023).toNat * 2 ^ 52
      else s + (e + 1023).toNat * 2 ^ 52 + (m.toNat - 2 ^ 52)

/-- Big-endian 8-byte encoding of a double (`struct.pack("!d", x)`). -/
def packDouble (q : ℚ) : List Nat := be 8 (f64bits q)

/-- Sanity check against the FIPS 180 test vector for the empty message. -/
theorem sha256_empty_vector :
    sha256 [] = [0xe3, 0xb0, 0xc4, 0x42, 0x98, 0xfc, 0x1c, 0x14,
                 0x9a, 0xfb, 0xf4, 0xc8, 0x99, 0x6f, 0xb9, 0x24,
                 0x27, 0xae, 0x41, 0xe4, 0x64, 0x9b, 0x93, 0x4c,
                 0xa4, 0x95, 0x99, 0x1b, 0x78, 0x52, 0xb8, 0x55] := by decide

/-- Sanity check against the FIPS 180 test vector for "abc". -/
theorem sha256_abc_vector :
    sha256 [0x61, 0x62, 0x63] =
      [0xba, 0x78, 0x16, 0xbf, 0x8f, 0x01, 0xcf, 0xea,
       0x41, 0x41, 0x40, 0xde, 0x5d, 0xae, 0x22, 0x23,
       0xb0, 0x03, 0x61, 0xa3, 0x96, 0x17, 0x7a, 0x9c,
       0xb4, 0x10, 0xff, 0x61, 0xf2, 0x00, 0x15, 0xad] := by decide

/-- Sanity check: `struct.pack("!d", 10.0)` is `40 24 00 00 00 00 00 00`. -/
theorem packDouble_ten : packDouble 10 = [0x40, 0x24, 0, 0, 0, 0, 0, 0] := by
  with_unfolding_all decide

/-! ## Core data structures (`ELTT-Blockchain.py`).

The validator module (`ELTT-Validator.py`) declares field-for-field
identical frozen dataclasses; the same Lean structures embed both.
`TokenType.kind` stays a plain string as in the chain engine — the
validator never inspects it. -/

/-- Constants and limits (identical in both modules). -/
def ELTT_MAX_TOKEN_SYMBOL_LEN : Nat := 16
def ELTT_MAX_TOKEN_NAME_LEN : Nat := 64
def ELTT_MAX_ADDRESS_LEN : Nat := 64
def ELTT_MAX_MEMO_LEN : Nat := 128
def ELTT_MAX_TOKEN_TYPES : Nat := 64
def ELTT_MAX_TX_PER_BLOCK : Nat := 256
def ELTT_MAX_WALLETS : Nat := 1024
def ELTT_MAX_POOLS : Nat := 256
def ELTT_MAX_STAKES : Nat := 1024

structure TokenType where
  name : String
  symbol : String
  decimals : Int
  kind : String
  energy_binding_factor : ℚ
  deriving DecidableEq

structure Wallet where
  address : String
  token_count : Nat
  tokens : List TokenType
  balances : List ℚ
  deriving DecidableEq

/-- The 13 transaction kinds. In the Python sources these are strings
(chain engine) and an `Enum` over the same strings (validator); membership
in the enumeration is total by construction here. -/
inductive TxKind where
  | TRANSFER | MINT | BURN | CREATE_TOKEN | CREATE_POOL
  | ADD_LIQUIDITY | REMOVE_LIQUIDITY | STAKE | UNSTAKE
  | CLAIM_REWARDS | SWAP | PROFILE_UPDATE | GOVERNANCE_PROPOSAL
  deriving DecidableEq

structure Transaction where
  from_address : String
  to_address : String
  amount : ℚ
  token_index : Int
  kind : TxKind
  memo : String
  deriving DecidableEq

structure Block where
  index : Nat
  timestamp : Nat
  prev_hash : List Nat
  hash : List Nat
  txs : List Transaction
  deriving DecidableEq

structure LiquidityPool where
  token_x_index : Int
  token_y_index : Int
  reserve_x : ℚ
  reserve_y : ℚ
  lp_token_index : Int
  deriving DecidableEq

structure StakingPosition where
  owner : String
  token_index : Int
  amount : ℚ
  start_timestamp : Nat
  lock_until : Nat
  accumulated_rewards : ℚ
  deriving DecidableEq

/-- The aggregate root (`Blockchain` in the engine, `BlockchainState` in
the validator — identical field lists). -/
structure Blockchain where
  blocks : List Block
  wallets : List Wallet
  token_types : List TokenType
  pools : List LiquidityPool
  stakes : List StakingPosition
  deriving DecidableEq

/-! ## Hashing and serialization (`ELTT-Blockchain.py`). -/

/-- The fixed kind → integer table used by `_serialize_transaction`. -/
def kindCode : TxKind → Nat
  | .TRANSFER => 0
  | .MINT => 1
  | .BURN => 2
  | .CREATE_TOKEN => 3
  | .CREATE_POOL => 4
  | .ADD_LIQUIDITY => 5
  | .REMOVE_LIQUIDITY => 6
  | .STAKE => 7
  | .UNSTAKE => 8
  | .CLAIM_REWARDS => 9
  | .SWAP => 10
  | .PROFILE_UPDATE => 11
  | .GOVERNANCE_PROPOSAL => 12

/-- Canonical transaction serialization.  `none` models the
`struct.pack("!i")` range error for a token index outside signed 32 bits;
the 4 index bytes are the big-endian two's complement. -/
def _serialize_transaction (tx : Transaction) : Option (List Nat) :=
  if -(2 ^ 31) ≤ tx.token_index ∧ tx.token_index < 2 ^ 31 then
    some (utf8 tx.from_address ++ [0] ++
          utf8 tx.to_address ++ [0] ++
          packDouble tx.amount ++
          be 4 (tx.token_index.emod 4294967296).toNat ++
          be 4 (kindCode tx.kind) ++
          utf8 tx.memo ++ [0])
  else none

/-- 32 zero bytes, the genesis previous-hash. -/
def zeros32 : List Nat := List.replicate 32 0

/-- Block header serialization: index (4 bytes), timestamp (8 bytes), raw
previous-hash bytes, transaction count (8 bytes).  `none` models the
`struct.pack` range errors. -/
def _serialize_block_header (block : Block) : Option (List Nat) :=
  if block.index < 4294967296 ∧ block.timestamp < 18446744073709551616 ∧
     block.txs.length < 18446744073709551616 then
    some (be 4 block.index ++ be 8 block.timestamp ++
          block.prev_hash ++ be 8 block.txs.length)
  else none

def compute_block_hash (block : Block) : Option (List Nat) :=
  (_serialize_block_header block).map sha256

/-! ## Energy formula (`compute_tx_energy`). -/

def _si_byte_value_from_size (size : Nat) : ℚ :=
  if size = 0 then 0 else (size : ℚ)

def _binary_byte_value_from_size (size : Nat) : ℚ :=
  if size = 0 then 0 else (size : ℚ)

/-- The fractional component: last 8 digest bytes read big-endian, reduced
mod 1e9, divided by 1e9. -/
def txFrac (s : List Nat) : ℚ :=
  ((beVal ((sha256 s).drop 24) % 1000000000 : Nat) : ℚ) / (1000000000 : ℚ)

def compute_tx_energy (tx : Transaction) : Option ℚ :=
  (_serialize_transaction tx).map (fun s =>
    _si_byte_value_from_size s.length + _binary_byte_value_from_size s.length +
      txFrac s)

/-! ## Wallet and token logic. -/

/-- Scan for a wallet address, returning its position or `-1`. -/
def findIdx (address : String) : Nat → List Wallet → Int
  | _, [] => -1
  | i, w :: ws => if w.address = address then (i : Int) else findIdx address (i + 1) ws

def _find_wallet_index (bc : Blockchain) (address : String) : Int :=
  findIdx address 0 bc.wallets

def _add_wallet (bc : Blockchain) (address : String) : Blockchain × Int :=
  if bc.wallets.length ≥ ELTT_MAX_WALLETS then (bc, -1)
  else
    let w : Wallet :=
      { address := address,
        token_count := bc.token_types.length,
        tokens := bc.token_types,
        balances := List.replicate bc.token_types.length 0 }
    ({ bc with wallets := bc.wallets ++ [w] }, (bc.wallets.length : Int))

def _find_or_create_wallet (bc : Blockchain) (address : String) : Blockchain × Int :=
  let idx := _find_wallet_index bc address
  if 0 ≤ idx then (bc, idx) else _add_wallet bc address

def add_token_type (bc : Blockchain) (name symbol : String) (decimals : Int)
    (kind : String) (energy_binding_factor : ℚ) : Blockchain × Int :=
  if bc.token_types.length ≥ ELTT_MAX_TOKEN_TYPES then (bc, -1)
  else
    let t : TokenType :=
      { name := name.take ELTT_MAX_TOKEN_NAME_LEN,
        symbol := symbol.take ELTT_MAX_TOKEN_SYMBOL_LEN,
        decimals := decimals,
        kind := kind,
        energy_binding_factor := energy_binding_factor }
    let tts := bc.token_types ++ [t]
    ({ bc with
        token_types := tts,
        wallets := bc.wallets.map (fun w =>
          { w with tokens := tts, balances := w.balances ++ [0],
                   token_count := tts.length }) },
     (tts.length : Int) - 1)

/-! ## Python list indexing.

`xs[i]` accepts negative indices (`-1` is the last element) and raises
IndexError otherwise; `none` models the raise. -/

def pyIdx (n : Nat) (i : Int) : Option Nat :=
  if 0 ≤ i then (if i < (n : Int) then some i.toNat else none)
  else (if i.natAbs ≤ n then some (n - i.natAbs) else none)

/-- Replace the element at a (resolved, in-range) position. -/
def listModify {α : Type} (f : α → α) : Nat → List α → List α
  | _, [] => []
  | 0, a :: as => f a :: as
  | n + 1, a :: as => a :: listModify f n as

/-- Reads `bc.wallets[wi].balances[ti]` with Python indexing. -/
def pyBalanceGet (bc : Blockchain) (wi ti : Int) : Option ℚ :=
  match pyIdx bc.wallets.length wi with
  | none => none
  | some j =>
    match bc.wallets[j]? with
    | none => none
    | some w =>
      match pyIdx w.balances.length ti with
      | none => none
      | some k => w.balances[k]?

/-- Writes `bc.wallets[wi].balances[ti] = f(old)` with Python indexing. -/
def pyBalanceUpdate (bc : Blockchain) (wi ti : Int) (f : ℚ → ℚ) : Option Blockchain :=
  match pyIdx bc.wallets.length wi with
  | none => none
  | some j =>
    match bc.wallets[j]? with
    | none => none
    | some w =>
      match pyIdx w.balances.length ti with
      | none => none
      | some k =>
        some { bc with
          wallets := listModify
            (fun w => { w with balances := listModify f k w.balances }) j bc.wallets }

/-! ## Transaction validation and application. -/

def _validate_transaction (bc : Blockchain) (tx : Transaction) : Option Bool :=
  if tx.token_index < 0 ∨ (bc.token_types.length : Int) ≤ tx.token_index then some false
  else if tx.amount < 0 then some false
  else
    let from_idx := _find_wallet_index bc tx.from_address
    let to_idx := _find_wallet_index bc tx.to_address
    match tx.kind with
    | .TRANSFER | .SWAP | .STAKE =>
      if from_idx < 0 then some false
      else
        match pyBalanceGet bc from_idx tx.token_index with
        | none => none
        | some b =>
          if b < tx.amount then some false
          else if tx.amount ≤ 0 then some false
          else some true
    | .MINT =>
      if to_idx < 0 then some false
      else if tx.amount ≤ 0 then some false
      else some true
    | .BURN =>
      if from_idx < 0 then some false
      else
        match pyBalanceGet bc from_idx tx.token_index with
        | none => none
        | some b =>
          if b < tx.amount then some false
          else if tx.amount ≤ 0 then some false
          else some true
    | _ => some true

def _apply_transaction (bc : Blockchain) (tx : Transaction) : Option Blockchain :=
  let p1 := _find_or_create_wallet bc tx.from_address
  let p2 := _find_or_create_wallet p1.1 tx.to_address
  let bc2 := p2.1
  let from_idx := p1.2
  let to_idx := p2.2
  match tx.kind with
  | .TRANSFER | .SWAP =>
    match pyBalanceUpdate bc2 from_idx tx.token_index (fun b => b - tx.amount) with
    | none => none
    | some bc3 => pyBalanceUpdate bc3 to_idx tx.token_index (fun b => b + tx.amount)
  | .MINT => pyBalanceUpdate bc2 to_idx tx.token_index (fun b => b + tx.amount)
  | .BURN => pyBalanceUpdate bc2 from_idx tx.token_index (fun b => b - tx.amount)
  | _ => some bc2

/-! ## Block validation and chain construction. -/

def _validate_txs (bc : Blockchain) : List Transaction → Option Bool
  | [] => some true
  | tx :: rest =>
    match _validate_transaction bc tx with
    | none => none
    | some false => some false
    | some true => _validate_txs bc rest

/-- The tail of `_validate_block`: recompute the header hash on a copy with
cleared hash field, compare with the stored hash, then validate every
transaction against the pre-block state. -/
def _validate_block_rest (bc : Blockchain) (block : Block) : Option Bool :=
  match compute_block_hash { block with hash := [] } with
  | none => none
  | some h => if h ≠ block.hash then some false else _validate_txs bc block.txs

def _validate_block (bc : Blockchain) (block : Block) : Option Bool :=
  if block.index = 0 then
    if block.prev_hash ≠ zeros32 then some false
    else _validate_block_rest bc block
  else
    match bc.blocks.getLast? with
    | none => some false
    | some prev =>
      if block.index ≠ prev.index + 1 then some false
      else if block.prev_hash ≠ prev.hash then some false
      else _validate_block_rest bc block

/-- Sequential application of a block's transactions. -/
def applyAll (bc : Blockchain) : List Transaction → Option Blockchain
  | [] => some bc
  | tx :: rest =>
    match _apply_transaction bc tx with
    | none => none
    | some bc2 => applyAll bc2 rest

/-- The append operation: validate, then append and apply all transactions.
`some (bc2, true)` is a successful append, `some (bc, false)` a rejection
(`return False`), `none` a Python exception. -/
def append_block (bc : Blockchain) (block : Block) : Option (Blockchain × Bool) :=
  match _validate_block bc block with
  | none => none
  | some false => some (bc, false)
  | some true =>
    match applyAll { bc with blocks := bc.blocks ++ [block] } block.txs with
    | none => none
    | some bc2 => some (bc2, true)

set_option linter.unusedVariables false in
/-- Genesis construction (the owner address is ignored by the source). -/
def build_genesis_block (owner_address : String) (timestamp : Nat) : Option Block :=
  let block : Block :=
    { index := 0, timestamp := timestamp, prev_hash := zeros32, hash := [], txs := [] }
  (compute_block_hash block).map (fun h => { block with hash := h })

/-! ## Full-state validator (`ELTT-Validator.py`).

Read-only audit over a complete snapshot.  `BlockchainState` is
field-for-field the `Blockchain` aggregate above.  The `state is None`
branch (NULL_BLOCKCHAIN) has no counterpart here since the embedded state
is never null. -/

inductive ValidatorError where
  | OK
  | NULL_BLOCKCHAIN
  | NO_BLOCKS
  | GENESIS_PREV_HASH
  | BLOCK_INDEX_SEQUENCE
  | BLOCK_PREV_HASH_MISMATCH
  | BLOCK_HASH_MISMATCH
  | TIMESTAMP_NON_MONOTONIC
  | TOKEN_SYMBOL_DUPLICATE
  | WALLET_ADDRESS_INVALID
  | WALLET_BALANCE_NEGATIVE
  | POOL_INDEX_INVALID
  | POOL_RESERVE_NEGATIVE
  | STAKE_OWNER_INVALID
  | STAKE_AMOUNT_NEGATIVE
  | STAKE_TIME_INCONSISTENT
  | TX_TOKEN_INDEX_INVALID
  | TX_AMOUNT_NEGATIVE
  | TX_KIND_INVALID
  | TX_REPLAY_DUPLICATE_IN_BLOCK
  | UNKNOWN
  deriving DecidableEq

/-- Address well-formedness: nonempty, shorter than 64 characters, no
control characters (code < 32 or = 127). -/
def _is_address_valid (addr : String) : Bool :=
  decide (addr.length ≠ 0) && decide (addr.length < ELTT_MAX_ADDRESS_LEN) &&
    addr.data.all (fun c => decide (32 ≤ c.toNat) && decide (c.toNat ≠ 127))

def _check_token_symbols_unique (state : Blockchain) : Bool :=
  decide (state.token_types.map TokenType.symbol).Nodup

def _check_wallets_go (ntok : Nat) : List Wallet → Option ValidatorError
  | [] => none
  | w :: ws =>
    if !(_is_address_valid w.address) then some .WALLET_ADDRESS_INVALID
    else if ntok < w.token_count then some .TX_TOKEN_INDEX_INVALID
    else if (w.balances.take w.token_count).any (fun bal => decide (bal < 0)) then
      some .WALLET_BALANCE_NEGATIVE
    else _check_wallets_go ntok ws

def _check_wallets (state : Blockchain) : Option ValidatorError :=
  _check_wallets_go state.token_types.length state.wallets

def _check_pools_go (ntok : Nat) : List LiquidityPool → Option ValidatorError
  | [] => none
  | p :: ps =>
    if p.token_x_index < 0 ∨ (ntok : Int) ≤ p.token_x_index then some .POOL_INDEX_INVALID
    else if p.token_y_index < 0 ∨ (ntok : Int) ≤ p.token_y_index then some .POOL_INDEX_INVALID
    else if p.lp_token_index < 0 ∨ (ntok : Int) ≤ p.lp_token_index then some .POOL_INDEX_INVALID
    else if p.reserve_x < 0 ∨ p.reserve_y < 0 then some .POOL_RESERVE_NEGATIVE
    else _check_pools_go ntok ps

def _check_pools (state : Blockchain) : Option ValidatorError :=
  _check_pools_go state.token_types.length state.pools

def _check_stakes_go (ntok : Nat) : List StakingPosition → Option ValidatorError
  | [] => none
  | s :: ss =>
    if !(_is_address_valid s.owner) then some .STAKE_OWNER_INVALID
    else if s.token_index < 0 ∨ (ntok : Int) ≤ s.token_index then some .TX_TOKEN_INDEX_INVALID
    else if s.amount < 0 then some .STAKE_AMOUNT_NEGATIVE
    else if s.lock_until < s.start_timestamp then some .STAKE_TIME_INCONSISTENT
    else _check_stakes_go ntok ss

def _check_stakes (state : Blockchain) : Option ValidatorError :=
  _check_stakes_go state.token_types.length state.stakes

/-- The duplicate-detection fingerprint.  The Python source hashes the
tuple `(from, to, token_index, amount, kind.value, memo)` with the
built-in `hash`; the fingerprint is modelled as the tuple itself (equal
tuples always hash equal — hash collisions between distinct tuples are not
modelled). -/
def _tx_fingerprint (tx : Transaction) : String × String × Int × ℚ × TxKind × String :=
  (tx.from_address, tx.to_address, tx.token_index, tx.amount, tx.kind, tx.memo)

/-- Per-transaction loop of `_check_block_transactions`.  The Python
`tx.kind not in TxKind` test is identically false here because `TxKind` is
a closed inductive, so no `TX_KIND_INVALID` branch remains. -/
def _check_btx_go (ntok : Nat)
    (seen : List (String × String × Int × ℚ × TxKind × String)) :
    List Transaction → Option ValidatorError
  | [] => none
  | tx :: rest =>
    if tx.token_index < 0 ∨ (ntok : Int) ≤ tx.token_index then some .TX_TOKEN_INDEX_INVALID
    else if tx.amount < 0 then some .TX_AMOUNT_NEGATIVE
    else if !(_is_address_valid tx.from_address) then some .WALLET_ADDRESS_INVALID
    else if !(_is_address_valid tx.to_address) then some .WALLET_ADDRESS_INVALID
    else if _tx_fingerprint tx ∈ seen then some .TX_REPLAY_DUPLICATE_IN_BLOCK
    else _check_btx_go ntok (seen ++ [_tx_fingerprint tx]) rest

def _check_block_transactions (state : Blockchain) (blk : Block) : Option ValidatorError :=
  if ELTT_MAX_TX_PER_BLOCK < blk.txs.length then some .UNKNOWN
  else _check_btx_go state.token_types.length [] blk.txs

/-- Chain loop of `_check_chain`: `prev` is the preceding block (`none` at
position 0) and `last_ts` the previous timestamp (0 at position 0). -/
def _check_chain_go (state : Blockchain) (prev : Option Block) (last_ts : Nat) :
    List Block → Option ValidatorError
  | [] => none
  | blk :: rest =>
    match prev with
    | none =>
      if blk.prev_hash ≠ zeros32 then some .GENESIS_PREV_HASH
      else
        match _check_block_transactions state blk with
        | some e => some e
        | none => _check_chain_go state (some blk) blk.timestamp rest
    | some p =>
      if blk.index ≠ p.index + 1 then some .BLOCK_INDEX_SEQUENCE
      else if blk.prev_hash ≠ p.hash then some .BLOCK_PREV_HASH_MISMATCH
      else if blk.timestamp < last_ts then some .TIMESTAMP_NON_MONOTONIC
      else
        match _check_block_transactions state blk with
        | some e => some e
        | none => _check_chain_go state (some blk) blk.timestamp rest

def _check_chain (state : Blockchain) : Option ValidatorError :=
  match state.blocks with
  | [] => some .NO_BLOCKS
  | _ => _check_chain_go state none 0 state.blocks

/-- Full snapshot audit: tokens, wallets, pools, stakes, chain, in order,
stopping at the first violated invariant. -/
def validate_blockchain (state : Blockchain) : ValidatorError :=
  if !(_check_token_symbols_unique state) then .TOKEN_SYMBOL_DUPLICATE
  else
    match _check_wallets state with
    | some e => e
    | none =>
      match _check_pools state with
      | some e => e
      | none =>
        match _check_stakes state with
        | some e => e
        | none =>
          match _check_chain state with
          | some e => e
          | none => .OK

/-! ## Concrete fixtures for claim C1 (double spend inside one block). -/

def tkT : TokenType :=
  { name := "T", symbol := "T", decimals := 8, kind := "GENERIC",
    energy_binding_factor := 1 }

def aliceW : Wallet :=
  { address := "alice", token_count := 1, tokens := [tkT], balances := [10] }

def bcC1 : Blockchain :=
  { blocks := [], wallets := [aliceW], token_types := [tkT], pools := [], stakes := [] }

def txC1a : Transaction :=
  { from_address := "alice", to_address := "bob", amount := 10, token_index := 0,
    kind := .TRANSFER, memo := "" }

def txC1b : Transaction :=
  { from_address := "alice", to_address := "carol", amount := 10, token_index := 0,
    kind := .TRANSFER, memo := "" }

def blkC1base : Block :=
  { index := 0, timestamp := 0, prev_hash := zeros32, hash := [], txs := [txC1a, txC1b] }

def blkC1 : Block :=
  { blkC1base with hash := (compute_block_hash blkC1base).getD [] }

def bcC1res : Blockchain :=
  match append_block bcC1 blkC1 with
  | some p => p.1
  | none => bcC1

set_option maxRecDepth 100000 in
/-- C1 (code_bug): a block whose two TRANSFER transactions each pass
validation against the *pre-block* state is accepted by `append_block`,
yet sequential application drives the sender's balance to -10 — the
resulting state violates the "no balance negative" invariant, and the
repository's own full-state validator rejects it. -/
theorem c1_accepted_block_yields_negative_balance :
    append_block bcC1 blkC1 = some (bcC1res, true) ∧
    bcC1res.wallets.map Wallet.balances = [[-10], [10], [10]] ∧
    ((-10 : ℚ) < 0) ∧
    validate_blockchain bcC1res = ValidatorError.WALLET_BALANCE_NEGATIVE := by
  with_unfolding_all decide

/-! ## Concrete fixtures for claims C2 and C3 (second genesis block). -/

def bcEmpty : Blockchain :=
  { blocks := [], wallets := [], token_types := [], pools := [], stakes := [] }

def gBase : Block :=
  { index := 0, timestamp := 0, prev_hash := zeros32, hash := [], txs := [] }

/-- A correctly hashed genesis block, as `build_genesis_block` makes it. -/
def g1 : Block := { gBase with hash := (compute_block_hash gBase).getD [] }

/-- The chain after one successful genesis append. -/
def bcG : Blockchain :=
  { blocks := [g1], wallets := [], token_types := [], pools := [], stakes := [] }

/-- The chain after appending the same genesis block a second time. -/
def bcG2 : Blockchain :=
  { blocks := [g1, g1], wallets := [], token_types := [], pools := [], stakes := [] }

set_option maxRecDepth 100000 in
/-- C3 (code_bug): the genesis branch of `_validate_block` never checks
that the chain is empty, so a second index-0 block is accepted after the
genesis; the resulting chain has a block with index 0 at position 1, and
the repository's own full-state validator rejects that chain. -/
theorem c3_second_genesis_accepted :
    append_block bcEmpty g1 = some (bcG, true) ∧
    append_block bcG g1 = some (bcG2, true) ∧
    bcG2.blocks.map Block.index = [0, 0] ∧
    validate_blockchain bcG2 = ValidatorError.BLOCK_INDEX_SEQUENCE := by
  with_unfolding_all decide

set_option maxRecDepth 100000 in
/-- C2 (counterexample): a candidate block whose previous-hash differs
from the last block's hash for which `append_block` nevertheless returns
`True` and changes the state — the claim's previous-hash disjunct fails
for index-0 candidates. -/
theorem c2_counterexample_prev_hash_mismatch_accepted :
    bcG.blocks.getLast? = some g1 ∧
    g1.prev_hash ≠ g1.hash ∧
    append_block bcG g1 = some (bcG2, true) ∧
    bcG2 ≠ bcG := by
  with_unfolding_all decide

/-! ## C7: the header hash ignores transaction contents. -/

/-- C7: `compute_block_hash` depends only on index, timestamp,
previous-hash and transaction count — two blocks agreeing on those four
values hash identically whatever their transactions contain. -/
theorem c7_header_hash_ignores_tx_contents (b1 b2 : Block)
    (hidx : b1.index = b2.index) (hts : b1.timestamp = b2.timestamp)
    (hprev : b1.prev_hash = b2.prev_hash) (hlen : b1.txs.length = b2.txs.length) :
    compute_block_hash b1 = compute_block_hash b2 := by
  unfold compute_block_hash _serialize_block_header
  rw [hidx, hts, hprev, hlen]

def blkC7a : Block :=
  { index := 1, timestamp := 2, prev_hash := zeros32, hash := [], txs := [txC1a] }

def blkC7b : Block :=
  { index := 1, timestamp := 2, prev_hash := zeros32, hash := [], txs := [txC1b] }

/-- Witness for C7: two one-transaction blocks with different transaction
values but identical headers produce the same hash. -/
theorem c7_witness :
    blkC7a.txs ≠ blkC7b.txs ∧
    compute_block_hash blkC7a = compute_block_hash blkC7b :=
  ⟨by with_unfolding_all decide,
   c7_header_hash_ignores_tx_contents blkC7a blkC7b rfl rfl rfl rfl⟩

/-! ## C4: the energy formula. -/

def txC4 : Transaction :=
  { from_address := "alice", to_address := "bob", amount := 10, token_index := 0,
    kind := .TRANSFER, memo := "" }

/-- The canonical serialization of `txC4` (27 bytes). -/
def serC4 : List Nat :=
  match _serialize_transaction txC4 with
  | some s => s
  | none => []

set_option maxRecDepth 40000 in
/-- C4: for every transaction whose token index fits in a signed 32-bit
integer, `compute_tx_energy` equals `2*L + frac` with `L` the serialized
byte length and `frac ∈ [0,1)` derived from the SHA-256 of the
serialization; the function is determined by the six transaction fields;
and the concrete `alice → bob` TRANSFER serializes to 27 bytes with energy
`54 + frac`. -/
theorem c4_energy_two_L_plus_frac :
    (∀ tx : Transaction, -(2 ^ 31) ≤ tx.token_index → tx.token_index < 2 ^ 31 →
      ∃ s, _serialize_transaction tx = some s ∧
        compute_tx_energy tx = some (2 * (s.length : ℚ) + txFrac s) ∧
        0 ≤ txFrac s ∧ txFrac s < 1) ∧
    (∀ t1 t2 : Transaction, t1.from_address = t2.from_address →
      t1.to_address = t2.to_address → t1.amount = t2.amount →
      t1.token_index = t2.token_index → t1.kind = t2.kind → t1.memo = t2.memo →
      compute_tx_energy t1 = compute_tx_energy t2) ∧
    (_serialize_transaction txC4 = some serC4 ∧ serC4.length = 27 ∧
      compute_tx_energy txC4 = some (54 + txFrac serC4)) := by
  have main : ∀ tx : Transaction, -(2 ^ 31) ≤ tx.token_index → tx.token_index < 2 ^ 31 →
      ∃ s, _serialize_transaction tx = some s ∧
        compute_tx_energy tx = some (2 * (s.length : ℚ) + txFrac s) ∧
        0 ≤ txFrac s ∧ txFrac s < 1 := by
    intro tx hlo hhi
    have hser : _serialize_transaction tx =
        some (utf8 tx.from_address ++ [0] ++ utf8 tx.to_address ++ [0] ++
          packDouble tx.amount ++ be 4 (tx.token_index.emod 4294967296).toNat ++
          be 4 (kindCode tx.kind) ++ utf8 tx.memo ++ [0]) := by
      unfold _serialize_transaction
      rw [if_pos ⟨hlo, hhi⟩]
    refine ⟨_, hser, ?_, ?_, ?_⟩
    · unfold compute_tx_energy
      rw [hser]
      simp only [Option.map_some']
      have hpos : (utf8 tx.from_address ++ [0] ++ utf8 tx.to_address ++ [0] ++
          packDouble tx.amount ++ be 4 (tx.token_index.emod 4294967296).toNat ++
          be 4 (kindCode tx.kind) ++ utf8 tx.memo ++ [0]).length ≠ 0 := by
        simp [List.length_append]
      rw [_si_byte_value_from_size, _binary_byte_value_from_size, if_neg hpos]
      congr 1
      ring
    · unfold txFrac
      positivity
    · unfold txFrac
      rw [div_lt_one (by norm_num)]
      exact_mod_cast Nat.mod_lt _ (by norm_num)
  have hserC4 : _serialize_transaction txC4 = some serC4 := by with_unfolding_all decide
  have hlenC4 : serC4.length = 27 := by with_unfolding_all decide
  refine ⟨main, ?_, hserC4, hlenC4, ?_⟩
  · intro t1 t2 h1 h2 h3 h4 h5 h6
    have : t1 = t2 := by cases t1; cases t2; simp_all
    rw [this]
  · obtain ⟨s, hs, he, _, _⟩ := main txC4 (by decide) (by decide)
    rw [hserC4] at hs
    obtain rfl : s = serC4 := (Option.some_inj.mp hs).symm
    rw [he, hlenC4]
    norm_num

set_option maxRecDepth 40000 in
/-- Witness for C4: the general formula applied at the concrete
`alice → bob` TRANSFER. -/
theorem c4_witness :
    (-(2 ^ 31) ≤ txC4.token_index ∧ txC4.token_index < 2 ^ 31) ∧
    serC4.length = 27 ∧
    compute_tx_energy txC4 = some (54 + txFrac serC4) ∧
    0 ≤ txFrac serC4 ∧ txFrac serC4 < 1 := by
  obtain ⟨s, hs, he, h0, h1⟩ := c4_energy_two_L_plus_frac.1 txC4 (by decide) (by decide)
  rw [c4_energy_two_L_plus_frac.2.2.1] at hs
  obtain rfl : s = serC4 := (Option.some_inj.mp hs).symm
  exact ⟨⟨by decide, by decide⟩, c4_energy_two_L_plus_frac.2.2.2.1,
    c4_energy_two_L_plus_frac.2.2.2.2, h0, h1⟩

/-! ## C5: `add_token_type`. -/

/-- A snapshot whose token registry is at the maximum (64 types). -/
def bcFull64 : Blockchain :=
  { blocks := [], wallets := [], token_types := List.replicate 64 tkT,
    pools := [], stakes := [] }

/-- C5: `add_token_type` rejects with `-1` and no change at the 64-type
maximum; otherwise it appends the truncated type, returns the new index,
gives every existing wallet one extra 0 balance and re-syncs its token
list and count, preserving balance-vector/registry alignment. -/
theorem c5_add_token_type :
    (∀ bc : Blockchain, ∀ nm sy : String, ∀ d : Int, ∀ k : String, ∀ ebf : ℚ,
      ELTT_MAX_TOKEN_TYPES ≤ bc.token_types.length →
      add_token_type bc nm sy d k ebf = (bc, -1)) ∧
    (∀ bc : Blockchain, ∀ nm sy : String, ∀ d : Int, ∀ k : String, ∀ ebf : ℚ,
      bc.token_types.length < ELTT_MAX_TOKEN_TYPES →
      (add_token_type bc nm sy d k ebf).2 = (bc.token_types.length : Int) ∧
      (add_token_type bc nm sy d k ebf).1.token_types =
        bc.token_types ++
          [{ name := nm.take ELTT_MAX_TOKEN_NAME_LEN,
             symbol := sy.take ELTT_MAX_TOKEN_SYMBOL_LEN, decimals := d,
             kind := k, energy_binding_factor := ebf }] ∧
      (add_token_type bc nm sy d k ebf).1.wallets =
        bc.wallets.map (fun w =>
          { w with
            tokens := bc.token_types ++
              [{ name := nm.take ELTT_MAX_TOKEN_NAME_LEN,
                 symbol := sy.take ELTT_MAX_TOKEN_SYMBOL_LEN, decimals := d,
                 kind := k, energy_binding_factor := ebf }],
            balances := w.balances ++ [0],
            token_count := (bc.token_types ++
              [({ name := nm.take ELTT_MAX_TOKEN_NAME_LEN,
                  symbol := sy.take ELTT_MAX_TOKEN_SYMBOL_LEN, decimals := d,
                  kind := k, energy_binding_factor := ebf } : TokenType)]).length }) ∧
      ((∀ w ∈ bc.wallets, w.balances.length = bc.token_types.length) →
        ∀ w ∈ (add_token_type bc nm sy d k ebf).1.wallets,
          w.balances.length = (add_token_type bc nm sy d k ebf).1.token_types.length)) := by
  constructor
  · intro bc nm sy d k ebf h
    unfold add_token_type
    rw [if_pos h]
  · intro bc nm sy d k ebf h
    have hne : ¬ ELTT_MAX_TOKEN_TYPES ≤ bc.token_types.length := Nat.not_le.mpr h
    unfold add_token_type
    rw [if_neg hne]
    refine ⟨by simp, rfl, rfl, ?_⟩
    intro hinv w hw
    simp only [List.mem_map] at hw
    obtain ⟨w0, hw0, rfl⟩ := hw
    simp [hinv w0 hw0]

/-- Witness for C5: rejection at the 64-type maximum and a successful
addition on a 1-type state. -/
theorem c5_witness :
    (ELTT_MAX_TOKEN_TYPES ≤ bcFull64.token_types.length ∧
      add_token_type bcFull64 "X" "X" 0 "GENERIC" 1 = (bcFull64, -1)) ∧
    (bcC1.token_types.length < ELTT_MAX_TOKEN_TYPES ∧
      (add_token_type bcC1 "NewTok" "NT" 8 "GENERIC" 1).2 = 1) :=
  ⟨⟨by decide, c5_add_token_type.1 bcFull64 "X" "X" 0 "GENERIC" 1 (by decide)⟩,
   ⟨by decide,
    ((c5_add_token_type.2 bcC1 "NewTok" "NT" 8 "GENERIC" 1 (by decide)).1).trans (by decide)⟩⟩

/-! ## Helper lemmas on `_validate_block`. -/

theorem validate_txs_mem {bc : Blockchain} :
    ∀ {l : List Transaction}, _validate_txs bc l = some true →
      ∀ tx ∈ l, _validate_transaction bc tx = some true := by
  intro l
  induction l with
  | nil => intro _ tx hm; simp at hm
  | cons t rest ih =>
    intro h tx hm
    unfold _validate_txs at h
    cases hv : _validate_transaction bc t with
    | none => simp only [hv] at h; exact Option.noConfusion h
    | some b =>
      simp only [hv] at h
      cases b with
      | false => simp at h
      | true =>
        rcases List.mem_cons.mp hm with rfl | hm2
        · exact hv
        · exact ih h tx hm2

theorem validate_block_rest_true {bc : Blockchain} {block : Block}
    (h : _validate_block_rest bc block = some true) :
    ∃ hh, compute_block_hash { block with hash := [] } = some hh ∧ block.hash = hh ∧
      _validate_txs bc block.txs = some true := by
  unfold _validate_block_rest at h
  cases hc : compute_block_hash { block with hash := [] } with
  | none => simp only [hc] at h; exact Option.noConfusion h
  | some hh =>
    simp only [hc] at h
    by_cases hne : hh ≠ block.hash
    · rw [if_pos hne] at h; simp at h
    · rw [if_neg hne] at h
      exact ⟨hh, rfl, (not_ne_iff.mp hne).symm, h⟩

theorem validate_block_true_parts {bc : Blockchain} {block : Block}
    (h : _validate_block bc block = some true) :
    _validate_block_rest bc block = some true ∧
    (block.index = 0 → block.prev_hash = zeros32) ∧
    (block.index ≠ 0 → ∃ p, bc.blocks.getLast? = some p ∧
      block.index = p.index + 1 ∧ block.prev_hash = p.hash) := by
  unfold _validate_block at h
  by_cases hi : block.index = 0
  · rw [if_pos hi] at h
    by_cases hz : block.prev_hash ≠ zeros32
    · rw [if_pos hz] at h; simp at h
    · rw [if_neg hz] at h
      exact ⟨h, fun _ => not_ne_iff.mp hz, fun hn => absurd hi hn⟩
  · rw [if_neg hi] at h
    cases hl : bc.blocks.getLast? with
    | none => simp only [hl] at h; simp at h
    | some p =>
      simp only [hl] at h
      by_cases h1 : block.index ≠ p.index + 1
      · rw [if_pos h1] at h; simp at h
      · rw [if_neg h1] at h
        by_cases h2 : block.prev_hash ≠ p.hash
        · rw [if_pos h2] at h; simp at h
        · rw [if_neg h2] at h
          exact ⟨h, fun h0 => absurd h0 hi,
            fun _ => ⟨p, rfl, not_ne_iff.mp h1, not_ne_iff.mp h2⟩⟩

/-- C2 (amended): if the candidate is non-genesis and its index skips
(empty chain or index ≠ last+1), or it is non-genesis and its
previous-hash differs from the last block's hash, or its stored hash
differs from the recomputed header hash, or some contained transaction
fails validation against the pre-block state — then, provided validation
reaches a verdict (raises no exception), `append_block` returns `False`
and the state is returned unchanged. -/
theorem c2_rejected_block_leaves_state_unchanged (bc : Blockchain) (block : Block)
    (hv : ∃ v, _validate_block bc block = some v)
    (hd : (block.index ≠ 0 ∧ (bc.blocks.getLast? = none ∨
             ∃ p, bc.blocks.getLast? = some p ∧ block.index ≠ p.index + 1)) ∨
          (block.index ≠ 0 ∧ ∃ p, bc.blocks.getLast? = some p ∧ block.prev_hash ≠ p.hash) ∨
          (∃ hh, compute_block_hash { block with hash := [] } = some hh ∧ block.hash ≠ hh) ∨
          (∃ tx ∈ block.txs, _validate_transaction bc tx = some false)) :
    append_block bc block = some (bc, false) := by
  obtain ⟨v, hvb⟩ := hv
  have hfalse : v = false := by
    by_contra hne
    have hv2 : v = true := by cases v; exact absurd rfl hne; rfl
    subst hv2
    obtain ⟨hrest, hgen, hnon⟩ := validate_block_true_parts hvb
    obtain ⟨hh, hch, hsh, htxs⟩ := validate_block_rest_true hrest
    rcases hd with ⟨hi, hca⟩ | ⟨hi, p, hp, hneq⟩ | ⟨hh2, hch2, hneq⟩ | ⟨tx, htm, htf⟩
    · obtain ⟨p, hp, h1, h2⟩ := hnon hi
      rcases hca with hnone | ⟨p2, hp2, hne2⟩
      · rw [hp] at hnone; exact Option.noConfusion hnone
      · rw [hp] at hp2
        injection hp2 with e
        subst e
        exact hne2 h1
    · obtain ⟨p2, hp2, h1, h2⟩ := hnon hi
      rw [hp2] at hp
      injection hp with e
      subst e
      exact hneq h2
    · rw [hch] at hch2
      injection hch2 with e
      subst e
      exact hneq hsh
    · have hvt := validate_txs_mem htxs tx htm
      rw [hvt] at htf
      simp at htf
  subst hfalse
  unfold append_block
  rw [hvb]

/-- A candidate block with a skipped index on the one-genesis chain. -/
def blkBadIdx : Block :=
  { index := 5, timestamp := 0, prev_hash := zeros32, hash := [], txs := [] }

set_option maxRecDepth 100000 in
/-- Witness for C2: the index-skipping candidate is rejected with the
state returned unchanged. -/
theorem c2_witness :
    _validate_block bcG blkBadIdx = some false ∧
    append_block bcG blkBadIdx = some (bcG, false) :=
  ⟨by with_unfolding_all decide,
   c2_rejected_block_leaves_state_unchanged bcG blkBadIdx
     ⟨false, by with_unfolding_all decide⟩
     (Or.inl ⟨by decide, Or.inr ⟨g1, by with_unfolding_all decide, by decide⟩⟩)⟩

/-! ## C6: conservation for TRANSFER/SWAP blocks. -/

/-- Fallback wallet for `getD`. -/
def dWallet : Wallet :=
  { address := "", token_count := 0, tokens := [], balances := [] }

theorem listModify_length {α : Type} (f : α → α) :
    ∀ (k : Nat) (l : List α), (listModify f k l).length = l.length := by
  intro k l
  induction l generalizing k with
  | nil => cases k <;> rfl
  | cons a as ih => cases k <;> simp [listModify, ih]

theorem listModify_getD {α : Type} (f : α → α) (d : α) :
    ∀ (l : List α) (k : Nat), k < l.length → ∀ t : Nat,
      (listModify f k l).getD t d = if t = k then f (l.getD t d) else l.getD t d := by
  intro l
  induction l with
  | nil => intro k hk; simp at hk
  | cons a as ih =>
    intro k hk t
    cases k with
    | zero =>
      cases t with
      | zero => simp [listModify]
      | succ t => simp [listModify]
    | succ k =>
      cases t with
      | zero => simp [listModify]
      | succ t =>
        simp only [listModify, List.getD_cons_succ]
        rw [ih k (by simpa using hk) t]
        by_cases he : t = k
        · subst he; simp
        · rw [if_neg he, if_neg (by omega)]

/-- Replace the stored hash of the last block of a snapshot. -/
def setLastBlockHash (s : Blockchain) (h : List Nat) : Blockchain :=
  { s with blocks :=
      listModify (fun b => { b with hash := h }) (s.blocks.length - 1) s.blocks }

theorem check_wallets_go_ne_bhm (ntok : Nat) :
    ∀ l, _check_wallets_go ntok l ≠ some ValidatorError.BLOCK_HASH_MISMATCH := by
  intro l
  induction l with
  | nil => simp [_check_wallets_go]
  | cons w ws ih =>
    unfold _check_wallets_go
    split
    · simp
    · split
      · simp
      · split
        · simp
        · exact ih

theorem check_pools_go_ne_bhm (ntok : Nat) :
    ∀ l, _check_pools_go ntok l ≠ some ValidatorError.BLOCK_HASH_MISMATCH := by
  intro l
  induction l with
  | nil => simp [_check_pools_go]
  | cons p ps ih =>
    unfold _check_pools_go
    split
    · simp
    · split
      · simp
      · split
        · simp
        · split
          · simp
          · exact ih

theorem check_stakes_go_ne_bhm (ntok : Nat) :
    ∀ l, _check_stakes_go ntok l ≠ some ValidatorError.BLOCK_HASH_MISMATCH := by
  intro l
  induction l with
  | nil => simp [_check_stakes_go]
  | cons st sts ih =>
    unfold _check_stakes_go
    split
    · simp
    · split
      · simp
      · split
        · simp
        · split
          · simp
          · exact ih

theorem check_btx_go_ne_bhm (ntok : Nat) :
    ∀ l seen, _check_btx_go ntok seen l ≠ some ValidatorError.BLOCK_HASH_MISMATCH := by
  intro l
  induction l with
  | nil => intro seen; simp [_check_btx_go]
  | cons tx rest ih =>
    intro seen
    unfold _check_btx_go
    split
    · simp
    · split
      · simp
      · split
        · simp
        · split
          · simp
          · split
            · simp
            · exact ih _

theorem check_block_transactions_ne_bhm (state : Blockchain) (blk : Block) :
    _check_block_transactions state blk ≠ some ValidatorError.BLOCK_HASH_MISMATCH := by
  unfold _check_block_transactions
  split
  · simp
  · exact check_btx_go_ne_bhm _ _ _

theorem check_chain_go_ne_bhm (state : Blockchain) :
    ∀ l prev ts, _check_chain_go state prev ts l ≠ some ValidatorError.BLOCK_HASH_MISMATCH := by
  intro l
  induction l with
  | nil => intro prev ts; simp [_check_chain_go]
  | cons blk rest ih =>
    intro prev ts hcon
    unfold _check_chain_go at hcon
    cases prev with
    | none =>
      dsimp only at hcon
      split at hcon
      · simp at hcon
      · cases hbt : _check_block_transactions state blk with
        | none =>
          simp only [hbt] at hcon
          exact ih _ _ hcon
        | some e =>
          simp only [hbt] at hcon
          injection hcon with e2
          exact check_block_transactions_ne_bhm state blk (by rw [hbt, e2])
    | some p =>
      dsimp only at hcon
      split at hcon
      · simp at hcon
      · split at hcon
        · simp at hcon
        · split at hcon
          · simp at hcon
          · cases hbt : _check_block_transactions state blk with
            | none =>
              simp only [hbt] at hcon
              exact ih _ _ hcon
            | some e =>
              simp only [hbt] at hcon
              injection hcon with e2
              exact check_block_transactions_ne_bhm state blk (by rw [hbt, e2])

theorem check_wallets_ne_bhm (state : Blockchain) :
    _check_wallets state ≠ some ValidatorError.BLOCK_HASH_MISMATCH :=
  check_wallets_go_ne_bhm _ _

theorem check_pools_ne_bhm (state : Blockchain) :
    _check_pools state ≠ some ValidatorError.BLOCK_HASH_MISMATCH :=
  check_pools_go_ne_bhm _ _

theorem check_stakes_ne_bhm (state : Blockchain) :
    _check_stakes state ≠ some ValidatorError.BLOCK_HASH_MISMATCH :=
  check_stakes_go_ne_bhm _ _

theorem check_chain_ne_bhm (state : Blockchain) :
    _check_chain state ≠ some ValidatorError.BLOCK_HASH_MISMATCH := by
  unfold _check_chain
  split
  · simp
  · exact check_chain_go_ne_bhm _ _ _ _

theorem validate_ne_bhm (state : Blockchain) :
    validate_blockchain state ≠ ValidatorError.BLOCK_HASH_MISMATCH := by
  unfold validate_blockchain
  split
  · simp
  · cases hw : _check_wallets state with
    | some e =>
      simp only [hw]
      intro hcon
      subst hcon
      exact check_wallets_ne_bhm state hw
    | none =>
      simp only [hw]
      cases hp : _check_pools state with
      | some e =>
        simp only [hp]
        intro hcon
        subst hcon
        exact check_pools_ne_bhm state hp
      | none =>
        simp only [hp]
        cases hst : _check_stakes state with
        | some e =>
          simp only [hst]
          intro hcon
          subst hcon
          exact check_stakes_ne_bhm state hst
        | none =>
          simp only [hst]
          cases hc : _check_chain state with
          | some e =>
            simp only [hc]
            intro hcon
            subst hcon
            exact check_chain_ne_bhm state hc
          | none => simp only [hc]; simp

/-- The per-block transaction check reads only the token-type count and
the block's transaction list, so two snapshots whose per-block checks
agree give the same chain pass. -/
theorem check_chain_go_state_irrel (s2 s : Blockchain)
    (hbt : ∀ blk, _check_block_transactions s2 blk = _check_block_transactions s blk) :
    ∀ l prev ts, _check_chain_go s2 prev ts l = _check_chain_go s prev ts l := by
  intro l
  induction l with
  | nil => intro prev ts; rfl
  | cons blk rest ih =>
    intro prev ts
    unfold _check_chain_go
    cases prev with
    | none =>
      dsimp only
      rw [hbt blk, ih (some blk) blk.timestamp]
    | some p =>
      dsimp only
      rw [hbt blk, ih (some blk) blk.timestamp]

/-- The chain pass never reads the hash field of the final block. -/
theorem check_chain_go_modLast (s : Blockchain) (h : List Nat) :
    ∀ (l : List Block) (prev : Option Block) (ts : Nat),
      _check_chain_go s prev ts
        (listModify (fun b => { b with hash := h }) (l.length - 1) l) =
      _check_chain_go s prev ts l := by
  intro l
  induction l with
  | nil => intro prev ts; rfl
  | cons blk rest ih =>
    intro prev ts
    cases rest with
    | nil => cases prev <;> rfl
    | cons b2 bs =>
      show _check_chain_go s prev ts
          (blk :: listModify (fun b => { b with hash := h }) ((b2 :: bs).length - 1)
            (b2 :: bs)) =
        _check_chain_go s prev ts (blk :: b2 :: bs)
      unfold _check_chain_go
      cases prev with
      | none =>
        dsimp only
        rw [ih (some blk) blk.timestamp]
      | some p =>
        dsimp only
        rw [ih (some blk) blk.timestamp]

theorem validate_setLastBlockHash (s : Blockchain) (h : List Nat) :
    validate_blockchain (setLastBlockHash s h) = validate_blockchain s := by
  have h1 : _check_token_symbols_unique (setLastBlockHash s h) =
      _check_token_symbols_unique s := rfl
  have h2 : _check_wallets (setLastBlockHash s h) = _check_wallets s := rfl
  have h3 : _check_pools (setLastBlockHash s h) = _check_pools s := rfl
  have h4 : _check_stakes (setLastBlockHash s h) = _check_stakes s := rfl
  have h5 : _check_chain (setLastBlockHash s h) = _check_chain s := by
    unfold _check_chain
    cases hbl : s.blocks with
    | nil =>
      have : (setLastBlockHash s h).blocks = [] := by
        simp [setLastBlockHash, hbl, listModify]
      rw [this]
    | cons b bs =>
      have hLb : (setLastBlockHash s h).blocks =
          listModify (fun b => { b with hash := h }) ((b :: bs).length - 1) (b :: bs) := by
        simp [setLastBlockHash, hbl]
      rw [hLb]
      have hgo : _check_chain_go (setLastBlockHash s h) none 0
            (listModify (fun b => { b with hash := h }) ((b :: bs).length - 1) (b :: bs)) =
          _check_chain_go s none 0 (b :: bs) := by
        rw [check_chain_go_state_irrel (setLastBlockHash s h) s (fun blk => rfl)]
        exact check_chain_go_modLast s h (b :: bs) none 0
      cases bs with
      | nil => exact hgo
      | cons b2 bs2 => exact hgo
  unfold validate_blockchain
  rw [h1, h2, h3, h4, h5]

theorem validate_ok_of_checks (s : Blockchain)
    (h1 : _check_token_symbols_unique s = true) (h2 : _check_wallets s = none)
    (h3 : _check_pools s = none) (h4 : _check_stakes s = none)
    (h5 : _check_chain s = none) :
    validate_blockchain s = ValidatorError.OK := by
  simp [validate_blockchain, h1, h2, h3, h4, h5]

/-- C9: `validate_blockchain` never returns `BLOCK_HASH_MISMATCH`; its
verdict is invariant under replacing the last block's stored hash; and a
snapshot passing the token/wallet/pool/stake/chain checks returns `OK` —
none of those checks recomputes any block hash. -/
theorem c9_validator_never_recomputes_hashes :
    (∀ s : Blockchain, validate_blockchain s ≠ ValidatorError.BLOCK_HASH_MISMATCH) ∧
    (∀ (s : Blockchain) (h : List Nat),
      validate_blockchain (setLastBlockHash s h) = validate_blockchain s) ∧
    (∀ s : Blockchain, _check_token_symbols_unique s = true → _check_wallets s = none →
      _check_pools s = none → _check_stakes s = none → _check_chain s = none →
      validate_blockchain s = ValidatorError.OK) :=
  ⟨validate_ne_bhm, validate_setLastBlockHash, validate_ok_of_checks⟩

/-- A genesis block whose stored hash is plainly wrong (3 bytes). -/
def gWrongHash : Block :=
  { index := 0, timestamp := 0, prev_hash := zeros32, hash := [1, 2, 3], txs := [] }

def sBadHash : Blockchain :=
  { blocks := [gWrongHash], wallets := [], token_types := [], pools := [], stakes := [] }

set_option maxRecDepth 100000 in
/-- Witness for C9: a snapshot whose stored hash differs from the SHA-256
recomputation is still `OK`. -/
theorem c9_witness :
    compute_block_hash { gWrongHash with hash := [] } ≠ some gWrongHash.hash ∧
    validate_blockchain sBadHash = ValidatorError.OK ∧
    validate_blockchain sBadHash ≠ ValidatorError.BLOCK_HASH_MISMATCH ∧
    validate_blockchain (setLastBlockHash sBadHash [9]) = validate_blockchain sBadHash :=
  ⟨by decide,
   c9_validator_never_recomputes_hashes.2.2 sBadHash (by decide) (by decide)
     (by decide) (by decide) (by decide),
   c9_validator_never_recomputes_hashes.1 sBadHash,
   c9_validator_never_recomputes_hashes.2.1 sBadHash [9]⟩

/-! ## C8: duplicate transactions within a block are flagged. -/

/-- The per-transaction field checks of `_check_block_transactions`
(token index in range, amount nonnegative, both addresses well-formed). -/
def txFieldsOK (ntok : Nat) (tx : Transaction) : Bool :=
  decide (0 ≤ tx.token_index) && decide (tx.token_index < (ntok : Int)) &&
    decide (0 ≤ tx.amount) && _is_address_valid tx.from_address &&
    _is_address_valid tx.to_address

/-- The linkage and timestamp conditions of the validator's chain pass
(genesis previous-hash; index and previous-hash linkage; non-decreasing
timestamps). -/
def chainLinkOK : Option Block → Nat → List Block → Bool
  | _, _, [] => true
  | prev, last_ts, blk :: rest =>
    (match prev with
     | none => decide (blk.prev_hash = zeros32)
     | some p => decide (blk.index = p.index + 1) && decide (blk.prev_hash = p.hash) &&
                 decide (last_ts ≤ blk.timestamp)) &&
    chainLinkOK (some blk) blk.timestamp rest

/-- No two transactions of the list share a fingerprint. -/
def fpDistinct (l : List Transaction) : Prop :=
  List.Pairwise (fun a b => _tx_fingerprint a ≠ _tx_fingerprint b) l

instance (l : List Transaction) : Decidable (fpDistinct l) := by
  unfold fpDistinct
  infer_instance

theorem check_btx_go_spec (ntok : Nat) :
    ∀ (l : List Transaction) (seen : List (String × String × Int × ℚ × TxKind × String)),
      (∀ tx ∈ l, txFieldsOK ntok tx = true) →
      ((_check_btx_go ntok seen l = none ↔
        (fpDistinct l ∧ ∀ tx ∈ l, _tx_fingerprint tx ∉ seen)) ∧
       (_check_btx_go ntok seen l = none ∨
        _check_btx_go ntok seen l = some ValidatorError.TX_REPLAY_DUPLICATE_IN_BLOCK)) := by
  intro l
  induction l with
  | nil =>
    intro seen _
    constructor
    · simp [_check_btx_go, fpDistinct]
    · left; rfl
  | cons tx rest ih =>
    intro seen hf
    have hft := hf tx (List.mem_cons_self tx rest)
    simp only [txFieldsOK, Bool.and_eq_true, decide_eq_true_eq] at hft
    obtain ⟨⟨⟨⟨hi0, hiub⟩, ham⟩, hfa⟩, hta⟩ := hft
    have hg1 : ¬(tx.token_index < 0 ∨ (ntok : Int) ≤ tx.token_index) := by
      push_neg
      exact ⟨hi0, hiub⟩
    have hg2 : ¬(tx.amount < 0) := not_lt.mpr ham
    unfold _check_btx_go
    rw [if_neg hg1, if_neg hg2, hfa, hta]
    simp only [Bool.not_true, Bool.false_eq_true, if_false]
    by_cases hmem : _tx_fingerprint tx ∈ seen
    · rw [if_pos hmem]
      constructor
      · constructor
        · intro hcon
          exact Option.noConfusion hcon
        · intro ⟨_, hall⟩
          exact absurd hmem (hall tx (List.mem_cons_self tx rest))
      · right; rfl
    · rw [if_neg hmem]
      obtain ⟨hiff, hor⟩ := ih (seen ++ [_tx_fingerprint tx])
        (fun tx2 hm => hf tx2 (List.mem_cons_of_mem _ hm))
      refine ⟨?_, hor⟩
      rw [hiff]
      constructor
      · intro ⟨hd, hns⟩
        have hns2 : ∀ tx2 ∈ rest, _tx_fingerprint tx2 ∉ seen ∧
            _tx_fingerprint tx2 ≠ _tx_fingerprint tx := by
          intro tx2 hm
          have := hns tx2 hm
          simp only [List.mem_append, List.mem_singleton] at this
          push_neg at this
          exact this
        refine ⟨List.pairwise_cons.mpr ⟨fun b hb => ((hns2 b hb).2).symm, hd⟩, ?_⟩
        intro tx2 hm
        rcases List.mem_cons.mp hm with rfl | hm2
        · exact hmem
        · exact (hns2 tx2 hm2).1
      · intro ⟨hd, hns⟩
        obtain ⟨hhead, hrest⟩ := List.pairwise_cons.mp hd
        refine ⟨hrest, ?_⟩
        intro tx2 hm
        simp only [List.mem_append, List.mem_singleton]
        push_neg
        exact ⟨hns tx2 (List.mem_cons_of_mem _ hm), fun he => (hhead tx2 hm) he.symm⟩

theorem check_block_transactions_spec (state : Blockchain) (blk : Block)
    (hlen : blk.txs.length ≤ ELTT_MAX_TX_PER_BLOCK)
    (hf : ∀ tx ∈ blk.txs, txFieldsOK state.token_types.length tx = true) :
    (_check_block_transactions state blk = none ↔ fpDistinct blk.txs) ∧
    (¬ fpDistinct blk.txs →
      _check_block_transactions state blk =
        some ValidatorError.TX_REPLAY_DUPLICATE_IN_BLOCK) := by
  have hnot : ¬(ELTT_MAX_TX_PER_BLOCK < blk.txs.length) := not_lt.mpr hlen
  obtain ⟨hiff, hor⟩ := check_btx_go_spec state.token_types.length blk.txs [] hf
  unfold _check_block_transactions
  rw [if_neg hnot]
  constructor
  · rw [hiff]
    simp
  · intro hdup
    rcases hor with hnone | hrep
    · exact absurd (hiff.mp hnone).1 hdup
    · exact hrep

theorem check_chain_go_dup (state : Blockchain) :
    ∀ (l : List Block) (prev : Option Block) (ts : Nat),
      chainLinkOK prev ts l = true →
      (∀ blk ∈ l, blk.txs.length ≤ ELTT_MAX_TX_PER_BLOCK ∧
        ∀ tx ∈ blk.txs, txFieldsOK state.token_types.length tx = true) →
      (∃ blk ∈ l, ¬ fpDistinct blk.txs) →
      _check_chain_go state prev ts l =
        some ValidatorError.TX_REPLAY_DUPLICATE_IN_BLOCK := by
  intro l
  induction l with
  | nil =>
    intro prev ts _ _ hex
    simp at hex
  | cons blk rest ih =>
    intro prev ts hlink hf hex
    have hfb := hf blk (List.mem_cons_self blk rest)
    obtain ⟨hbiff, hbdup⟩ := check_block_transactions_spec state blk hfb.1 hfb.2
    unfold chainLinkOK at hlink
    simp only [Bool.and_eq_true] at hlink
    obtain ⟨hhead, htail⟩ := hlink
    have hresolve : ∀ hd : fpDistinct blk.txs, ∃ b2 ∈ rest, ¬ fpDistinct b2.txs := by
      intro hd
      rcases hex with ⟨b2, hb2, hdd⟩
      rcases List.mem_cons.mp hb2 with rfl | hm2
      · exact absurd hd hdd
      · exact ⟨b2, hm2, hdd⟩
    unfold _check_chain_go
    cases prev with
    | none =>
      dsimp only
      dsimp only at hhead
      rw [decide_eq_true_eq] at hhead
      rw [if_neg (not_ne_iff.mpr hhead)]
      by_cases hd : fpDistinct blk.txs
      · rw [hbiff.mpr hd]
        exact ih (some blk) blk.timestamp htail
          (fun b hb => hf b (List.mem_cons_of_mem _ hb)) (hresolve hd)
      · rw [hbdup hd]
    | some p =>
      dsimp only
      dsimp only at hhead
      simp only [Bool.and_eq_true, decide_eq_true_eq] at hhead
      obtain ⟨⟨he1, he2⟩, he3⟩ := hhead
      rw [if_neg (not_ne_iff.mpr he1), if_neg (not_ne_iff.mpr he2),
        if_neg (not_lt.mpr he3)]
      by_cases hd : fpDistinct blk.txs
      · rw [hbiff.mpr hd]
        exact ih (some blk) blk.timestamp htail
          (fun b hb => hf b (List.mem_cons_of_mem _ hb)) (hresolve hd)
      · rw [hbdup hd]

/-- C8: on a snapshot that passes the token-symbol, wallet, pool and
stake checks, whose chain satisfies the linkage/timestamp conditions and
whose transactions all pass the per-transaction field checks (with at
most 256 per block), a block containing two transactions with identical
(from, to, token index, amount, kind, memo) makes `validate_blockchain`
return `TX_REPLAY_DUPLICATE_IN_BLOCK`. -/
theorem c8_duplicate_tx_flagged (state : Blockchain)
    (h1 : _check_token_symbols_unique state = true)
    (h2 : _check_wallets state = none)
    (h3 : _check_pools state = none)
    (h4 : _check_stakes state = none)
    (h6 : chainLinkOK none 0 state.blocks = true)
    (h7 : ∀ blk ∈ state.blocks, blk.txs.length ≤ ELTT_MAX_TX_PER_BLOCK ∧
      ∀ tx ∈ blk.txs, txFieldsOK state.token_types.length tx = true)
    (h8 : ∃ blk ∈ state.blocks, ¬ fpDistinct blk.txs) :
    validate_blockchain state = ValidatorError.TX_REPLAY_DUPLICATE_IN_BLOCK := by
  have hchain : _check_chain state =
      some ValidatorError.TX_REPLAY_DUPLICATE_IN_BLOCK := by
    unfold _check_chain
    cases hbl : state.blocks with
    | nil =>
      rcases h8 with ⟨b, hb, -⟩
      rw [hbl] at hb
      simp at hb
    | cons b bs =>
      dsimp only
      exact check_chain_go_dup state (b :: bs) none 0 (hbl ▸ h6) (hbl ▸ h7) (hbl ▸ h8)
  simp [validate_blockchain, h1, h2, h3, h4, hchain]

/-- A duplicated TRANSFER inside one block. -/
def txDup : Transaction :=
  { from_address := "alice", to_address := "bob", amount := 1, token_index := 0,
    kind := .TRANSFER, memo := "" }

def blkDup : Block :=
  { index := 0, timestamp := 0, prev_hash := zeros32, hash := [], txs := [txDup, txDup] }

def stateC8 : Blockchain :=
  { blocks := [blkDup], wallets := [], token_types := [tkT], pools := [], stakes := [] }

set_option maxRecDepth 100000 in
/-- Witness for C8: the duplicate block is flagged. -/
theorem c8_witness :
    ¬ fpDistinct blkDup.txs ∧
    chainLinkOK none 0 stateC8.blocks = true ∧
    validate_blockchain stateC8 = ValidatorError.TX_REPLAY_DUPLICATE_IN_BLOCK :=
  ⟨by with_unfolding_all decide, by decide,
   c8_duplicate_tx_flagged stateC8 (by decide) (by decide) (by decide) (by decide)
     (by decide) (by with_unfolding_all decide)
     ⟨blkDup, by with_unfolding_all decide, by with_unfolding_all decide⟩⟩

/-! ## C10: wallet creation at the 1024-wallet maximum. -/

theorem findIdx_spec (address : String) :
    ∀ (l : List Wallet) (i : Nat), 0 ≤ findIdx address i l →
      ∃ j : Nat, j < l.length ∧ findIdx address i l = ((i + j : Nat) : Int) := by
  intro l
  induction l with
  | nil => intro i h; simp [findIdx] at h
  | cons w ws ih =>
    intro i h
    by_cases hw : w.address = address
    · refine ⟨0, by simp, ?_⟩
      unfold findIdx
      rw [if_pos hw]
      simp
    · unfold findIdx at h ⊢
      rw [if_neg hw] at h ⊢
      obtain ⟨j, hj, he⟩ := ih (i + 1) h
      refine ⟨j + 1, by simpa using hj, ?_⟩
      rw [he]
      congr 1
      omega

theorem find_wallet_index_spec (bc : Blockchain) (address : String)
    (h : 0 ≤ _find_wallet_index bc address) :
    ∃ j : Nat, j < bc.wallets.length ∧ _find_wallet_index bc address = (j : Int) := by
  obtain ⟨j, hj, he⟩ := findIdx_spec address bc.wallets 0 h
  refine ⟨j, hj, ?_⟩
  unfold _find_wallet_index
  rw [he]
  norm_num

theorem getElem?_eq_getD {α : Type} :
    ∀ (l : List α) (j : Nat) (d : α), j < l.length → l[j]? = some (l.getD j d) := by
  intro l
  induction l with
  | nil => intro j d h; simp at h
  | cons a as ih =>
    intro j d h
    cases j with
    | zero => simp
    | succ j => simpa using ih j d (by simpa using h)

theorem getD_mem {α : Type} :
    ∀ (l : List α) (j : Nat) (d : α), j < l.length → l.getD j d ∈ l := by
  intro l
  induction l with
  | nil => intro j d h; simp at h
  | cons a as ih =>
    intro j d h
    cases j with
    | zero => simp
    | succ j =>
      simp only [List.getD_cons_succ]
      exact List.mem_cons_of_mem a (ih j d (by simpa using h))

theorem listModify_map_address (g : Wallet → Wallet)
    (hg : ∀ w, (g w).address = w.address) :
    ∀ (j : Nat) (l : List Wallet),
      (listModify g j l).map Wallet.address = l.map Wallet.address := by
  intro j l
  induction l generalizing j with
  | nil => cases j <;> rfl
  | cons a as ih =>
    cases j with
    | zero => simp [listModify, hg]
    | succ j => simp [listModify, ih]

theorem pyBalanceUpdate_eq (bc : Blockchain) (j : Nat) (ti : Int) (f : ℚ → ℚ) (w : Wallet)
    (hj : bc.wallets[j]? = some w) (hti0 : 0 ≤ ti)
    (htil : ti < (w.balances.length : Int)) :
    pyBalanceUpdate bc (j : Int) ti f =
      some { bc with
        wallets := listModify
          (fun w => { w with balances := listModify f ti.toNat w.balances })
          j bc.wallets } := by
  have hjlt : j < bc.wallets.length := by
    by_contra hge
    rw [List.getElem?_eq_none (by omega)] at hj
    exact Option.noConfusion hj
  have hpy1 : pyIdx bc.wallets.length (j : Int) = some j := by
    unfold pyIdx
    rw [if_pos (by positivity), if_pos (by exact_mod_cast hjlt)]
    simp
  have hpy2 : pyIdx w.balances.length ti = some ti.toNat := by
    unfold pyIdx
    rw [if_pos hti0, if_pos htil]
  unfold pyBalanceUpdate
  simp only [hpy1, hj, hpy2]

theorem pyBalanceUpdate_neg_one (bc : Blockchain) (ti : Int) (f : ℚ → ℚ) (w : Wallet)
    (hlen : 0 < bc.wallets.length)
    (hw : bc.wallets[bc.wallets.length - 1]? = some w)
    (hti0 : 0 ≤ ti) (htil : ti < (w.balances.length : Int)) :
    pyBalanceUpdate bc (-1) ti f =
      some { bc with
        wallets := listModify
          (fun w => { w with balances := listModify f ti.toNat w.balances })
          (bc.wallets.length - 1) bc.wallets } := by
  have hpy1 : pyIdx bc.wallets.length (-1) = some (bc.wallets.length - 1) := by
    unfold pyIdx
    rw [if_neg (by norm_num), if_pos (by simpa using hlen)]
    simp
  have hpy2 : pyIdx w.balances.length ti = some ti.toNat := by
    unfold pyIdx
    rw [if_pos hti0, if_pos htil]
  unfold pyBalanceUpdate
  simp only [hpy1, hw, hpy2]

theorem validate_transfer_facts {bc : Blockchain} {tx : Transaction}
    (h3 : tx.kind = TxKind.TRANSFER ∨ tx.kind = TxKind.SWAP)
    (h4 : _validate_transaction bc tx = some true) :
    0 ≤ tx.token_index ∧ tx.token_index < (bc.token_types.length : Int) ∧
    0 ≤ _find_wallet_index bc tx.from_address := by
  unfold _validate_transaction at h4
  split at h4
  · simp at h4
  · rename_i hg1
    push_neg at hg1
    split at h4
    · simp at h4
    · rcases h3 with hk | hk <;>
      · simp only [hk] at h4
        split at h4
        · simp at h4
        · rename_i hfrom
          exact ⟨hg1.1, hg1.2, not_lt.mp hfrom⟩

/-- Applying a validated TRANSFER/SWAP whose recipient is absent while the
registry is at the 1024-wallet maximum: no wallet is created and the two
balance writes go to the sender and to the wallet that Python's `-1`
resolves to — the last one. -/
theorem apply_transfer_at_max (bc : Blockchain) (tx : Transaction)
    (h1 : bc.wallets.length = ELTT_MAX_WALLETS)
    (h2 : _find_wallet_index bc tx.to_address = -1)
    (h3 : tx.kind = TxKind.TRANSFER ∨ tx.kind = TxKind.SWAP)
    (h4 : _validate_transaction bc tx = some true)
    (h5 : ∀ w ∈ bc.wallets, w.balances.length = bc.token_types.length) :
    ∀ s : Blockchain, s.wallets = bc.wallets →
      _apply_transaction s tx =
        some { s with
          wallets := listModify
            (fun w => { w with
              balances := listModify (fun b => b + tx.amount)
                tx.token_index.toNat w.balances })
            (ELTT_MAX_WALLETS - 1)
            (listModify
              (fun w => { w with
                balances := listModify (fun b => b - tx.amount)
                  tx.token_index.toNat w.balances })
              (_find_wallet_index bc tx.from_address).toNat s.wallets) } := by
  obtain ⟨hti0, htiub, hfi0⟩ := validate_transfer_facts h3 h4
  obtain ⟨j, hjlt, hje⟩ := find_wallet_index_spec bc tx.from_address hfi0
  intro s hs
  rw [hje]
  simp only [Int.toNat_natCast]
  have hslen : s.wallets.length = ELTT_MAX_WALLETS := by rw [hs, h1]
  have hjs : j < s.wallets.length := by rw [hs]; exact hjlt
  have hfw_s : _find_wallet_index s tx.from_address = (j : Int) := by
    unfold _find_wallet_index
    rw [hs]
    exact hje
  have hfoc_from : _find_or_create_wallet s tx.from_address = (s, (j : Int)) := by
    simp only [_find_or_create_wallet]
    rw [hfw_s, if_pos (by positivity)]
  have hfw_to_s : _find_wallet_index s tx.to_address = -1 := by
    unfold _find_wallet_index
    rw [hs]
    exact h2
  have hadd_to : _add_wallet s tx.to_address = (s, -1) := by
    unfold _add_wallet
    rw [if_pos (le_of_eq hslen.symm)]
  have hfoc_to : _find_or_create_wallet s tx.to_address = (s, -1) := by
    simp only [_find_or_create_wallet]
    rw [hfw_to_s, if_neg (by norm_num), hadd_to]
  have hw_get : s.wallets[j]? = some (s.wallets.getD j dWallet) :=
    getElem?_eq_getD s.wallets j dWallet hjs
  have hw_len : (s.wallets.getD j dWallet).balances.length = bc.token_types.length := by
    refine h5 _ ?_
    rw [← hs]
    exact getD_mem s.wallets j dWallet hjs
  have hupd1 := pyBalanceUpdate_eq s j tx.token_index (fun b => b - tx.amount)
    (s.wallets.getD j dWallet) hw_get hti0 (by rw [hw_len]; exact htiub)
  -- the state after the debit
  set s1 : Blockchain := { s with
    wallets := listModify
      (fun w => { w with
        balances := listModify (fun b => b - tx.amount) tx.token_index.toNat w.balances })
      j s.wallets } with hs1
  have hW1len : s1.wallets.length = ELTT_MAX_WALLETS := by
    show (listModify _ j s.wallets).length = ELTT_MAX_WALLETS
    rw [listModify_length]
    exact hslen
  have hlastlt : ELTT_MAX_WALLETS - 1 < s1.wallets.length := by
    rw [hW1len]
    decide
  have hlast_get : s1.wallets[ELTT_MAX_WALLETS - 1]? =
      some (s1.wallets.getD (ELTT_MAX_WALLETS - 1) dWallet) :=
    getElem?_eq_getD s1.wallets (ELTT_MAX_WALLETS - 1) dWallet hlastlt
  have hlast_len : (s1.wallets.getD (ELTT_MAX_WALLETS - 1) dWallet).balances.length =
      bc.token_types.length := by
    show ((listModify _ j s.wallets).getD (ELTT_MAX_WALLETS - 1) dWallet).balances.length = _
    rw [listModify_getD _ dWallet s.wallets j hjs (ELTT_MAX_WALLETS - 1)]
    by_cases hj1023 : ELTT_MAX_WALLETS - 1 = j
    · rw [if_pos hj1023]
      show (listModify _ tx.token_index.toNat _).length = _
      rw [listModify_length, hj1023, hw_len]
    · rw [if_neg hj1023]
      refine h5 _ ?_
      rw [← hs]
      exact getD_mem s.wallets (ELTT_MAX_WALLETS - 1) dWallet (by rw [hslen] at *; omega)
  have hupd2 := pyBalanceUpdate_neg_one s1 tx.token_index (fun b => b + tx.amount)
    (s1.wallets.getD (ELTT_MAX_WALLETS - 1) dWallet) (by rw [hW1len]; decide)
    (by rw [hW1len]; exact hW1len ▸ hlast_get) hti0
    (by rw [hlast_len]; exact htiub)
  rcases h3 with hk | hk <;>
  · unfold _apply_transaction
    simp only [hk]
    rw [hfoc_from, hfoc_to]
    dsimp only
    rw [hupd1]
    dsimp only
    rw [hupd2, hW1len]

/-- C10: with the registry at the 1024-wallet maximum, wallet creation
returns the sentinel `-1`; `_find_or_create_wallet` passes it through;
applying a validated TRANSFER/SWAP to an absent recipient creates no
wallet and credits the amount to the wallet at the last index; and
`append_block` still returns `True` without creating a wallet. -/
theorem c10_sentinel_credits_last_wallet (bc : Blockchain) (tx : Transaction)
    (block : Block)
    (h1 : bc.wallets.length = ELTT_MAX_WALLETS)
    (h2 : _find_wallet_index bc tx.to_address = -1)
    (h3 : tx.kind = TxKind.TRANSFER ∨ tx.kind = TxKind.SWAP)
    (h4 : _validate_transaction bc tx = some true)
    (h5 : ∀ w ∈ bc.wallets, w.balances.length = bc.token_types.length)
    (h6 : _find_wallet_index bc tx.from_address ≠ ((ELTT_MAX_WALLETS : Nat) : Int) - 1)
    (h7 : block.txs = [tx])
    (h8 : _validate_block bc block = some true) :
    _add_wallet bc tx.to_address = (bc, -1) ∧
    _find_or_create_wallet bc tx.to_address = (bc, -1) ∧
    (_apply_transaction bc tx).map (fun s => s.wallets.length) =
      some ELTT_MAX_WALLETS ∧
    (_apply_transaction bc tx).map (fun s => s.wallets.map Wallet.address) =
      some (bc.wallets.map Wallet.address) ∧
    (_apply_transaction bc tx).map (fun s =>
        (s.wallets.getD (ELTT_MAX_WALLETS - 1) dWallet).balances.getD
          tx.token_index.toNat 0) =
      some ((bc.wallets.getD (ELTT_MAX_WALLETS - 1) dWallet).balances.getD
        tx.token_index.toNat 0 + tx.amount) ∧
    (append_block bc block).map (fun p => (p.2, p.1.wallets.map Wallet.address)) =
      some (true, bc.wallets.map Wallet.address) := by
  obtain ⟨hti0, htiub, hfi0⟩ := validate_transfer_facts h3 h4
  obtain ⟨j, hjlt, hje⟩ := find_wallet_index_spec bc tx.from_address hfi0
  have hjne : j ≠ ELTT_MAX_WALLETS - 1 := by
    intro he
    apply h6
    rw [hje, he]
    decide
  have htiN : tx.token_index.toNat < bc.token_types.length := by omega
  have happ := apply_transfer_at_max bc tx h1 h2 h3 h4 h5
  have happbc := happ bc rfl
  rw [hje] at happbc
  simp only [Int.toNat_natCast] at happbc
  have hadd : _add_wallet bc tx.to_address = (bc, -1) := by
    unfold _add_wallet
    rw [if_pos (le_of_eq h1.symm)]
  have hfoc : _find_or_create_wallet bc tx.to_address = (bc, -1) := by
    simp only [_find_or_create_wallet]
    rw [h2, if_neg (by norm_num), hadd]
  have hlen2 : (listModify (fun w => { w with
      balances := listModify (fun b => b - tx.amount) tx.token_index.toNat w.balances })
      j bc.wallets).length = bc.wallets.length := listModify_length _ _ _
  refine ⟨hadd, hfoc, ?_, ?_, ?_, ?_⟩
  · rw [happbc]
    dsimp only [Option.map_some']
    rw [listModify_length, listModify_length, h1]
  · rw [happbc]
    dsimp only [Option.map_some']
    rw [listModify_map_address (fun w => { w with balances := listModify (fun b => b + tx.amount) tx.token_index.toNat w.balances }) (fun w => rfl)]
    rw [listModify_map_address (fun w => { w with balances := listModify (fun b => b - tx.amount) tx.token_index.toNat w.balances }) (fun w => rfl)]
  · rw [happbc]
    dsimp only [Option.map_some']
    rw [listModify_getD _ dWallet _ (ELTT_MAX_WALLETS - 1)
        (by rw [hlen2, h1]; decide) (ELTT_MAX_WALLETS - 1)]
    rw [if_pos rfl]
    rw [listModify_getD _ dWallet bc.wallets j hjlt (ELTT_MAX_WALLETS - 1)]
    rw [if_neg (fun he => hjne he.symm)]
    have hwlast : (bc.wallets.getD (ELTT_MAX_WALLETS - 1) dWallet).balances.length =
        bc.token_types.length :=
      h5 _ (getD_mem bc.wallets (ELTT_MAX_WALLETS - 1) dWallet (by rw [h1]; decide))
    dsimp only
    rw [listModify_getD _ 0 _ tx.token_index.toNat (by rw [hwlast]; exact htiN)
        tx.token_index.toNat]
    rw [if_pos rfl]
  · have happB := happ { bc with blocks := bc.blocks ++ [block] } rfl
    rw [hje] at happB
    simp only [Int.toNat_natCast] at happB
    have hapAll : applyAll { bc with blocks := bc.blocks ++ [block] } [tx] =
        some { { bc with blocks := bc.blocks ++ [block] } with
          wallets := listModify
            (fun w => { w with
              balances := listModify (fun b => b + tx.amount)
                tx.token_index.toNat w.balances })
            (ELTT_MAX_WALLETS - 1)
            (listModify
              (fun w => { w with
                balances := listModify (fun b => b - tx.amount)
                  tx.token_index.toNat w.balances })
              j ({ bc with blocks := bc.blocks ++ [block] } : Blockchain).wallets) } := by
      unfold applyAll
      rw [happB]
      rfl
    unfold append_block
    simp only [h8, h7, hapAll]
    dsimp only [Option.map_some']
    rw [listModify_map_address (fun w => { w with balances := listModify (fun b => b + tx.amount) tx.token_index.toNat w.balances }) (fun w => rfl)]
    rw [listModify_map_address (fun w => { w with balances := listModify (fun b => b - tx.amount) tx.token_index.toNat w.balances }) (fun w => rfl)]

def digitChar (n : Nat) : Char := Char.ofNat (48 + n % 10)

/-- A deterministic 5-character address for wallet number `i`. -/
def addrOf (i : Nat) : String :=
  String.mk ['w', digitChar (i / 1000), digitChar (i / 100), digitChar (i / 10), digitChar i]

def bigWallet (i : Nat) : Wallet :=
  { address := addrOf i, token_count := 1, tokens := [tkT], balances := [5] }

/-- Head-first enumeration of `fuel` consecutive naturals. -/
def rangeList (fuel start : Nat) : List Nat :=
  match fuel with
  | 0 => []
  | f + 1 => start :: rangeList f (start + 1)

/-- A registry holding the maximum of 1024 wallets. -/
def bcBig : Blockchain :=
  { blocks := [], wallets := (rangeList ELTT_MAX_WALLETS 0).map bigWallet,
    token_types := [tkT], pools := [], stakes := [] }

def txBig : Transaction :=
  { from_address := addrOf 0, to_address := "bob", amount := 4, token_index := 0,
    kind := .TRANSFER, memo := "" }

def blkBigBase : Block :=
  { index := 0, timestamp := 0, prev_hash := zeros32, hash := [], txs := [txBig] }

def blkBig : Block := { blkBigBase with hash := (compute_block_hash blkBigBase).getD [] }

theorem bcBig_wallet_lengths :
    ∀ w ∈ bcBig.wallets, w.balances.length = bcBig.token_types.length := by
  intro w hw
  have hw2 : w ∈ (rangeList ELTT_MAX_WALLETS 0).map bigWallet := hw
  rw [List.mem_map] at hw2
  obtain ⟨i, -, rfl⟩ := hw2
  rfl

set_option maxRecDepth 400000 in
/-- Witness for C10: on the concrete 1024-wallet registry, the absent
recipient "bob" gets no wallet, the last wallet is credited (5 + 4 = 9),
and the block still appends successfully. -/
theorem c10_witness :
    bcBig.wallets.length = ELTT_MAX_WALLETS ∧
    _find_wallet_index bcBig txBig.to_address = -1 ∧
    _add_wallet bcBig txBig.to_address = (bcBig, -1) ∧
    (_apply_transaction bcBig txBig).map (fun s => s.wallets.length) =
      some ELTT_MAX_WALLETS ∧
    (_apply_transaction bcBig txBig).map (fun s =>
        (s.wallets.getD (ELTT_MAX_WALLETS - 1) dWallet).balances.getD
          txBig.token_index.toNat 0) = some 9 ∧
    (append_block bcBig blkBig).map (fun p => (p.2, p.1.wallets.map Wallet.address)) =
      some (true, bcBig.wallets.map Wallet.address) := by
  have H := c10_sentinel_credits_last_wallet bcBig txBig blkBig
    (by with_unfolding_all decide) (by with_unfolding_all decide)
    (Or.inl rfl) (by with_unfolding_all decide)
    bcBig_wallet_lengths (by with_unfolding_all decide)
    rfl (by with_unfolding_all decide)
  exact ⟨by with_unfolding_all decide, by with_unfolding_all decide, H.1, H.2.2.1,
    (H.2.2.2.2.1).trans (by with_unfolding_all decide), H.2.2.2.2.2⟩

end ELTT
